import Mathlib

/-!
# Gmail-Sorting: verification of the job pipeline against its specification

Shallow embedding of the Gmail-Sorting repository (`classifier.py`,
`gmail_service.py`, `workers.py`, `main.py`) in Lean 4, together with
theorems settling the frozen claims about the specification.

External effects (database rows, the Gmail HTTP API, the ML model, the
Celery runtime) are modelled as explicit inputs: an environment record
supplies the outcome of every provider call, and the orchestrator task is
a pure function from that environment and the persisted world to the
resulting world.
-/

namespace GmailSorting

/-! ## Classifier (`classifier.py`)

`EmailClassifier.CATEGORIES` is a static catalog mapping category name to
keyword list (colors are irrelevant to the claims and omitted). -/

def workKeywords : List String :=
  ["meeting", "project", "deadline", "report", "team", "office"]

def personalKeywords : List String :=
  ["family", "friend", "dinner", "party", "birthday"]

def promotionKeywords : List String :=
  ["sale", "discount", "offer", "deal", "promo", "coupon"]

def spamKeywords : List String :=
  ["lottery", "winner", "urgent", "verify", "click here", "congratulations"]

def financeKeywords : List String :=
  ["invoice", "payment", "transaction", "bank", "credit", "debit"]

def securityKeywords : List String :=
  ["password", "security", "alert", "verify", "authentication", "login"]

/-- The keys of `EmailClassifier.CATEGORIES`, in dict insertion order. -/
def catalogKeys : List String :=
  ["work", "personal", "promotion", "spam", "finance", "security"]

/-- Tests whether `needle` matches `haystack` starting at its head (Python
startswith on the remaining suffix). -/
def matchesAt : List Char → List Char → Bool
  | [], _ => true
  | _ :: _, [] => false
  | a :: as, b :: bs => a = b && matchesAt as bs

/-- Python's substring test `needle in haystack` on character lists. -/
def containsSub (needle : List Char) : List Char → Bool
  | [] => needle.isEmpty
  | b :: bs => matchesAt needle (b :: bs) || containsSub needle bs

/-- Python `keyword in text` for strings. -/
def strContains (text keyword : String) : Bool :=
  containsSub keyword.data text.data

/-- Python `sum(1 for keyword in keywords if keyword in text)`: the number
of distinct catalog keywords occurring in `text`. -/
def keywordScore (keywords : List String) (text : String) : Nat :=
  (keywords.filter (fun k => strContains text k)).length

/-- Embeds the rule pass of the classifier (fixed priority order
spam (≥2) → security (≥2) → finance (any) → promotion (≥2) → work (≥2),
first match wins, `None` otherwise. -/
def ruleBasedClassify (text : String) : Option String :=
  if 2 ≤ keywordScore spamKeywords text then some "spam"
  else if 2 ≤ keywordScore securityKeywords text then some "security"
  else if financeKeywords.any (fun k => strContains text k) then some "finance"
  else if 2 ≤ keywordScore promotionKeywords text then some "promotion"
  else if 2 ≤ keywordScore workKeywords text then some "work"
  else none

/-- The mode enum from `models.py`. -/
inductive ModelMode
  | fast
  | balanced
  | accurate
deriving DecidableEq, Repr

/-- Outcome of one `model.predict` invocation: either a predicted label or a
raised exception. -/
inductive MLOutcome
  | pred (label : String)
  | err
deriving DecidableEq, Repr

/-- The trained model as an oracle from the classification text to the
outcome of `predict`. -/
def MLModel : Type := String → MLOutcome

/-- The ML fallback of the classifier: returns the prediction, or `none`
when the model raises (the exception is caught and swallowed). -/
def mlClassify (m : MLModel) (text : String) : Option String :=
  match m text with
  | MLOutcome.pred label => some label
  | MLOutcome.err => none

/-- Python `str.lower`, written over the character list so that it reduces
inside the kernel (ASCII inputs only, as in the keyword catalog). -/
def lowerString (s : String) : String :=
  String.mk (s.data.map Char.toLower)

/-- The text classified: `f"{subject} {body} {sender}".lower()`. -/
def classifyText (subject body sender : String) : String :=
  lowerString (subject ++ " " ++ body ++ " " ++ sender)

/-- The classify method of the classifier. `model` is the loaded model if
any (`self.model`; `None` in FAST mode or when loading failed). The Python
`if category:` truthiness tests make an empty-string prediction fall through
to the `"personal"` default. -/
def classify (subject body sender : String) (mode : ModelMode)
    (model : Option MLModel) : String :=
  match ruleBasedClassify (classifyText subject body sender) with
  | some c => c
  | none =>
    match mode, model with
    | ModelMode.fast, _ => "personal"
    | _, none => "personal"
    | _, some m =>
      match mlClassify m (classifyText subject body sender) with
      | some c => if c = "" then "personal" else c
      | none => "personal"

/-- The probabilistic fallback's usable prediction, as consulted by
`classify` after the rule pass misses: `none` when the mode is FAST, when no
model is loaded, when `predict` raises (swallowed), or when the prediction is
the empty string (falsy in Python). -/
def fallbackPrediction (mode : ModelMode) (model : Option MLModel)
    (text : String) : Option String :=
  match mode, model with
  | ModelMode.fast, _ => none
  | _, none => none
  | _, some m =>
    match mlClassify m text with
    | some c => if c = "" then none else some c
    | none => none

/-- Every category the rule pass can produce. -/
theorem ruleBasedClassify_mem (t : String) (c : String)
    (h : ruleBasedClassify t = some c) :
    c ∈ ["spam", "security", "finance", "promotion", "work"] := by
  unfold ruleBasedClassify at h
  split_ifs at h <;> simp_all

/-- Unfolded form of `classify`: the rule pass, then the usable fallback
prediction, then the default "personal". -/
theorem classify_eq_rule_or_fallback (subject body sender : String)
    (mode : ModelMode) (model : Option MLModel) :
    classify subject body sender mode model =
      match ruleBasedClassify (classifyText subject body sender) with
      | some c => c
      | none =>
        (fallbackPrediction mode model (classifyText subject body sender)).getD
          "personal" := by
  unfold classify fallbackPrediction
  cases ruleBasedClassify (classifyText subject body sender) with
  | some c => rfl
  | none =>
    cases mode <;> cases model <;> try rfl
    all_goals {
      rename_i m
      show (match mlClassify m (classifyText subject body sender) with
            | some c => if c = "" then "personal" else c
            | none => "personal") =
          (match mlClassify m (classifyText subject body sender) with
            | some c => if c = "" then none else some c
            | none => none).getD "personal"
      cases mlClassify m (classifyText subject body sender) with
      | none => rfl
      | some c => by_cases hc : c = "" <;> simp [hc]
    }

/-- C6: the rule pass runs over the lower-cased concatenation of subject,
body and sender in the fixed priority order spam, security, finance,
promotion, work with first match winning, so any input with ≥2 spam keyword
hits and ≥2 work keyword hits classifies as spam, never work. -/
theorem classify_spam_beats_work_c6 (subject body sender : String)
    (mode : ModelMode) (model : Option MLModel)
    (hspam : 2 ≤ keywordScore spamKeywords (classifyText subject body sender))
    (hwork : 2 ≤ keywordScore workKeywords (classifyText subject body sender)) :
    classify subject body sender mode model = "spam" ∧
      classify subject body sender mode model ≠ "work" := by
  have hrule : ruleBasedClassify (classifyText subject body sender) = some "spam" := by
    unfold ruleBasedClassify
    rw [if_pos hspam]
  rw [classify_eq_rule_or_fallback, hrule]
  refine ⟨rfl, ?_⟩
  show ("spam" : String) ≠ "work"
  decide

/-- Witness for C6 at a concrete input holding two spam keywords
("lottery", "winner") and two work keywords ("meeting", "project"). -/
theorem classify_spam_beats_work_c6_witness :
    2 ≤ keywordScore spamKeywords
        (classifyText "Lottery Winner!" "meeting about the project" "boss@corp.com") ∧
    2 ≤ keywordScore workKeywords
        (classifyText "Lottery Winner!" "meeting about the project" "boss@corp.com") ∧
    classify "Lottery Winner!" "meeting about the project" "boss@corp.com"
        ModelMode.fast none = "spam" :=
  ⟨by decide, by decide,
    (classify_spam_beats_work_c6 "Lottery Winner!" "meeting about the project"
      "boss@corp.com" ModelMode.fast none (by decide) (by decide)).1⟩

/-- A usable fallback prediction is never the empty string. -/
theorem fallbackPrediction_ne_empty (mode : ModelMode) (model : Option MLModel)
    (t c : String) (h : fallbackPrediction mode model t = some c) : c ≠ "" := by
  unfold fallbackPrediction at h
  cases mode <;> cases model <;> try exact Option.noConfusion h
  all_goals {
    rename_i m
    have h₁ : (match mlClassify m t with
        | some c₀ => if c₀ = "" then none else some c₀
        | none => none) = some c := h
    cases hml : mlClassify m t with
    | none =>
      rw [hml] at h₁
      simp at h₁
    | some c₀ =>
      rw [hml] at h₁
      have h₂ : (if c₀ = "" then none else some c₀) = some c := h₁
      by_cases hc : c₀ = ""
      · rw [if_pos hc] at h₂
        exact Option.noConfusion h₂
      · rw [if_neg hc] at h₂
        rw [← Option.some.inj h₂]
        exact hc
  }

/-- A raised model error is swallowed: no usable fallback prediction. -/
theorem fallbackPrediction_of_err (mode : ModelMode) (m : MLModel) (t : String)
    (h : m t = MLOutcome.err) : fallbackPrediction mode (some m) t = none := by
  cases mode <;> simp [fallbackPrediction, mlClassify, h]

/-- C7: `classify` always returns a nonempty category name; when no rule
matches and the probabilistic fallback yields no usable prediction —
including when the model raises, which is swallowed — the result is the
default category "personal". -/
theorem classify_total_default_personal_c7 (subject body sender : String)
    (mode : ModelMode) (model : Option MLModel) :
    classify subject body sender mode model ≠ "" ∧
    (ruleBasedClassify (classifyText subject body sender) = none →
      (fallbackPrediction mode model (classifyText subject body sender) = none →
        classify subject body sender mode model = "personal") ∧
      (∀ m, model = some m →
        m (classifyText subject body sender) = MLOutcome.err →
        classify subject body sender mode model = "personal")) := by
  rw [classify_eq_rule_or_fallback]
  constructor
  · cases hr : ruleBasedClassify (classifyText subject body sender) with
    | some c =>
      have hmem := ruleBasedClassify_mem _ _ hr
      have hne : ∀ x ∈ ["spam", "security", "finance", "promotion", "work"],
          x ≠ ("" : String) := by decide
      exact hne c hmem
    | none =>
      cases hf : fallbackPrediction mode model (classifyText subject body sender) with
      | none =>
        show ("personal" : String) ≠ ""
        decide
      | some c =>
        show c ≠ ""
        exact fallbackPrediction_ne_empty mode model _ c hf
  · intro hr
    refine ⟨fun hf => by rw [hr, hf]; rfl, fun m hm hme => ?_⟩
    rw [hr, hm, fallbackPrediction_of_err mode m _ hme]
    rfl

/-- Witness for C7: an input matching no rule, in FAST mode with no model,
classifies as "personal". -/
theorem classify_total_default_personal_c7_witness :
    classify "hi" "there" "bob@example.com" ModelMode.fast none = "personal" :=
  ((classify_total_default_personal_c7 "hi" "there" "bob@example.com"
      ModelMode.fast none).2 (by decide)).1 rfl

/-! ## MessageFetcher pagination (`gmail_service.py`, `get_messages`)

The provider is modelled as a well-behaved mailbox holding the ordered list
`avail` of message ids matching the query: each `users().messages().list`
page returns the next `pageSize` ids and a continuation token exactly when
ids remain. -/

/-- Default of `settings.GMAIL_MAX_RESULTS` from `config.py`. -/
def GMAIL_MAX_RESULTS : Nat := 500

/-- One provider list page: the request asks for
`min(500, max_results - len(message_ids))` ids and the provider returns the
next that many ids from `offset` (clamped to what remains). The
continuation token is present exactly when ids remain after the page. -/
def pageOf (avail : List String) (maxResults offset accLen : Nat) : List String :=
  (avail.drop offset).take (min 500 (maxResults - accLen))

/-- The `while len(message_ids) < max_results` pagination loop of
`get_messages`: request a page, extend the accumulator, stop when the
continuation token is absent (no ids remain past the page). `fuel` bounds
provider calls; `avail.length + 1` always suffices. -/
def getMessagesLoop (avail : List String) (maxResults : Nat) :
    Nat → List String → Nat → List String
  | _, acc, 0 => acc
  | offset, acc, fuel + 1 =>
    if acc.length < maxResults then
      if offset + (pageOf avail maxResults offset acc.length).length < avail.length then
        getMessagesLoop avail maxResults
          (offset + (pageOf avail maxResults offset acc.length).length)
          (acc ++ pageOf avail maxResults offset acc.length) fuel
      else acc ++ pageOf avail maxResults offset acc.length
    else acc

/-- Embeds `get_messages`: `max_results = max_results or
settings.GMAIL_MAX_RESULTS` (so a falsy `0` falls back to the default),
paginate, then truncate to `max_results`. -/
def get_messages (avail : List String) (maxResults : Nat) : List String :=
  let m := if maxResults = 0 then GMAIL_MAX_RESULTS else maxResults
  (getMessagesLoop avail m 0 [] (avail.length + 1)).take m

/-- Pagination loop invariant: starting from the prefix already fetched, the
loop (truncated to `maxResults`) yields exactly the first `maxResults`
available ids. -/
theorem getMessagesLoop_spec (avail : List String) (m : Nat) (hm : 1 ≤ m) :
    ∀ fuel offset, offset ≤ avail.length → avail.length - offset < fuel →
      (getMessagesLoop avail m offset (avail.take offset) fuel).take m =
        avail.take m := by
  intro fuel
  induction fuel with
  | zero => intro offset _ hfuel; omega
  | succ fuel ih =>
    intro offset hoff hfuel
    have hacclen : (avail.take offset).length = offset := by
      rw [List.length_take]
      omega
    unfold getMessagesLoop
    rw [hacclen]
    by_cases hcond : offset < m
    · rw [if_pos hcond]
      have hplen : (pageOf avail m offset offset).length =
          min (min 500 (m - offset)) (avail.length - offset) := by
        rw [pageOf, List.length_take, List.length_drop]
      have hacc' : avail.take offset ++ pageOf avail m offset offset =
          avail.take (offset + min 500 (m - offset)) := by
        rw [pageOf]
        exact (List.take_add avail offset (min 500 (m - offset))).symm
      have htake_next : avail.take (offset + min 500 (m - offset)) =
          avail.take (offset + (pageOf avail m offset offset).length) := by
        rw [List.take_eq_take]
        omega
      by_cases hmore :
          offset + (pageOf avail m offset offset).length < avail.length
      · rw [if_pos hmore, hacc', htake_next]
        exact ih (offset + (pageOf avail m offset offset).length)
          (by omega) (by omega)
      · rw [if_neg hmore, hacc', htake_next]
        have hn : offset + (pageOf avail m offset offset).length =
            avail.length := by omega
        rw [hn, List.take_length]
    · rw [if_neg hcond]
      rw [List.take_take, List.take_eq_take]
      omega

/-- C8 (amended): for every positive `maxResults = N`, `get_messages`
paginates until the continuation token is absent or `N` ids are accumulated
and returns exactly the first `min(N, available)` ids — never more than `N`.
(For `N = 0`, falsy in Python, the configured default is used instead; see
the counterexample.) -/
theorem get_messages_returns_min_c8 (avail : List String) (N : Nat)
    (hN : 1 ≤ N) :
    get_messages avail N = avail.take N ∧
      (get_messages avail N).length = min N avail.length ∧
      (get_messages avail N).length ≤ N := by
  have h0 : get_messages avail N =
      (getMessagesLoop avail N 0 [] (avail.length + 1)).take N := by
    unfold get_messages
    rw [if_neg (by omega : ¬ N = 0)]
  have hspec := getMessagesLoop_spec avail N hN (avail.length + 1) 0
    (Nat.zero_le _) (by omega)
  rw [List.take_zero] at hspec
  rw [h0, hspec]
  refine ⟨rfl, List.length_take _ _, ?_⟩
  rw [List.length_take]
  omega

/-- Witness for C8: three available ids, `maxResults = 2`, exactly the first
two ids are returned. -/
theorem get_messages_returns_min_c8_witness :
    1 ≤ 2 ∧ get_messages ["a", "b", "c"] 2 = ["a", "b"] :=
  ⟨by decide, ((get_messages_returns_min_c8 ["a", "b", "c"] 2 (by decide)).1).trans
    (by decide)⟩

/-- Counterexample to C8 as stated: with `maxResults = 0` the Python
`max_results or settings.GMAIL_MAX_RESULTS` falsiness substitutes the
default of 500, so one available message yields one id — more than
`N = 0` and not `min(0, 1) = 0`. -/
theorem get_messages_zero_counterexample_c8 :
    get_messages ["a"] 0 = ["a"] ∧
      ¬ ((get_messages ["a"] 0).length ≤ 0) := by
  constructor <;> decide

/-! ## Message detail retrieval (`gmail_service.py`, `get_message_detail`) -/

/-- The fields of a fetched message relevant to classification. -/
structure MessageDetail where
  subject : String
  sender : String
  body : String
deriving DecidableEq, Repr

/-- Outcome of one attempt of the `get_message_detail` body against the
provider: the full message, a provider `HttpError` (tagged with whether it
is transient/rate-limit-class; the tag is ignored by the code, whose
`except HttpError` catches every class alike), or a non-`HttpError`
exception escaping the body. -/
inductive DetailAttempt
  | ok (d : MessageDetail)
  | httpErr (transient : Bool)
  | exn
deriving DecidableEq, Repr

/-- The decorated body of one attempt: `some result` when the attempt
returns (an `HttpError` is caught inside the body and yields `None`,
i.e. absent), `none` when a non-`HttpError` exception escapes to the
retry decorator. -/
def detailAttemptResult : DetailAttempt → Option (Option MessageDetail)
  | DetailAttempt.ok d => some (some d)
  | DetailAttempt.httpErr _ => some none
  | DetailAttempt.exn => none

/-- Embeds `get_message_detail` under
`@retry(stop=stop_after_attempt(3), wait=wait_exponential(...))` — with no
`retry=` predicate, so tenacity retries every escaping exception: attempts
1, 2, 3 in order; a returning attempt ends the call; the third escaping
exception propagates (`Except.error`). -/
def get_message_detail (att : Nat → DetailAttempt) :
    Except Unit (Option MessageDetail) :=
  match detailAttemptResult (att 1) with
  | some r => Except.ok r
  | none =>
    match detailAttemptResult (att 2) with
    | some r => Except.ok r
    | none =>
      match detailAttemptResult (att 3) with
      | some r => Except.ok r
      | none => Except.error ()

/-- Counterexample to C5 as stated: a transient/rate-limit-class provider
error on the first attempt is not retried — the call returns absent
immediately even though the second attempt would have succeeded, so absent
is not reserved for not-found conditions after the retry policy is
exhausted. -/
theorem get_message_detail_counterexample_c5 :
    (fun n => if n = 1 then DetailAttempt.httpErr true
      else DetailAttempt.ok ⟨"s", "f", "b"⟩) 1 = DetailAttempt.httpErr true ∧
    (fun n => if n = 1 then DetailAttempt.httpErr true
      else DetailAttempt.ok ⟨"s", "f", "b"⟩) 2 =
        DetailAttempt.ok ⟨"s", "f", "b"⟩ ∧
    get_message_detail (fun n => if n = 1 then DetailAttempt.httpErr true
      else DetailAttempt.ok ⟨"s", "f", "b"⟩) = Except.ok none := by
  refine ⟨rfl, rfl, rfl⟩

/-- C5 (amended): `get_message_detail` returns absent immediately on any
provider `HttpError` of the first attempt, whatever its class and with no
retry; only non-`HttpError` exceptions are retried, up to 3 attempts
total — in particular a fetch failing with such exceptions twice and
succeeding on the third attempt returns the success result, and one failing
on all three attempts propagates the exception. -/
theorem get_message_detail_retry_c5 (att : Nat → DetailAttempt) :
    (∀ t, att 1 = DetailAttempt.httpErr t →
      get_message_detail att = Except.ok none) ∧
    (∀ d, att 1 = DetailAttempt.exn → att 2 = DetailAttempt.exn →
      att 3 = DetailAttempt.ok d →
      get_message_detail att = Except.ok (some d)) ∧
    (att 1 = DetailAttempt.exn → att 2 = DetailAttempt.exn →
      att 3 = DetailAttempt.exn →
      get_message_detail att = Except.error ()) := by
  refine ⟨fun t h1 => ?_, fun d h1 h2 h3 => ?_, fun h1 h2 h3 => ?_⟩ <;>
    unfold get_message_detail <;>
    rw [h1] <;> try rw [h2] <;> try rw [h3]
  all_goals rfl

/-- Witness for C5 (amended): two escaping failures then a success on the
third attempt yields the success result. -/
theorem get_message_detail_retry_c5_witness :
    get_message_detail (fun n => if n ≤ 2 then DetailAttempt.exn
      else DetailAttempt.ok ⟨"s", "f", "b"⟩) = Except.ok (some ⟨"s", "f", "b"⟩) :=
  ((get_message_detail_retry_c5 (fun n => if n ≤ 2 then DetailAttempt.exn
      else DetailAttempt.ok ⟨"s", "f", "b"⟩)).2.1) ⟨"s", "f", "b"⟩ rfl rfl rfl

/-! ## LabelManager (`gmail_service.py`, `create_label`)

The provider label catalog is modelled as an ordered list of
(id, name) pairs plus a fresh-id counter; `users().labels().list` returns
that list and `users().labels().create` appends a fresh label. -/

structure LabelStore where
  labels : List (String × String)
  nextId : Nat
deriving DecidableEq, Repr

/-- Python `label["name"].lower() == label_name.lower()`. -/
def nameMatches (labelName target : String) : Bool :=
  lowerString labelName = lowerString target

/-- Embeds `create_label` against provider state `st`: reuse the id of
the first case-insensitively matching label, otherwise create one. Returns
(label id, new provider state, number of creation calls issued). -/
def create_label (st : LabelStore) (labelName : String) :
    String × LabelStore × Nat :=
  match st.labels.find? (fun l => nameMatches l.2 labelName) with
  | some l => (l.1, st, 0)
  | none =>
    ("L" ++ toString st.nextId,
     { labels := st.labels ++ [("L" ++ toString st.nextId, labelName)],
       nextId := st.nextId + 1 },
     1)

/-- Finding over an append skips a prefix with no match. -/
theorem find?_append_of_none {α : Type} (p : α → Bool) (l₁ l₂ : List α)
    (h : l₁.find? p = none) : (l₁ ++ l₂).find? p = l₂.find? p := by
  induction l₁ with
  | nil => rfl
  | cons a l ih =>
    cases hpa : p a with
    | true => simp [List.find?_cons, hpa] at h
    | false =>
      rw [List.find?_cons, hpa] at h
      rw [List.cons_append, List.find?_cons, hpa]
      exact ih h

/-- A fresh label's name matches its own creation name. -/
theorem nameMatches_self (name : String) : nameMatches name name = true := by
  simp [nameMatches]

/-- C9: `create_label` (the `resolveOrCreate` of the spec) is idempotent:
calling it twice for the same name returns the same remote label id, leaves
the provider state of the first call unchanged, and issues at most one
creation call in total — creation happens exactly when no case-insensitive
name match exists among the remote labels. -/
theorem create_label_idempotent_c9 (st : LabelStore) (name : String) :
    (create_label (create_label st name).2.1 name).1 = (create_label st name).1 ∧
    (create_label (create_label st name).2.1 name).2.1 = (create_label st name).2.1 ∧
    (create_label st name).2.2 + (create_label (create_label st name).2.1 name).2.2 ≤ 1 ∧
    ((create_label st name).2.2 = 1 ↔
      st.labels.find? (fun l => nameMatches l.2 name) = none) := by
  cases hf : st.labels.find? (fun l => nameMatches l.2 name) with
  | some l =>
    have h1 : create_label st name = (l.1, st, 0) := by
      unfold create_label
      rw [hf]
    rw [h1]
    unfold create_label
    rw [hf]
    refine ⟨rfl, rfl, Nat.zero_le 1, ?_⟩
    constructor
    · intro hc
      exact absurd hc (by simp)
    · intro hn
      exact absurd hn (by simp)
  | none =>
    have h1 : create_label st name =
        ("L" ++ toString st.nextId,
         { labels := st.labels ++ [("L" ++ toString st.nextId, name)],
           nextId := st.nextId + 1 },
         1) := by
      unfold create_label
      rw [hf]
    rw [h1]
    have hfind2 : (st.labels ++ [("L" ++ toString st.nextId, name)]).find?
        (fun l => nameMatches l.2 name) =
          some ("L" ++ toString st.nextId, name) := by
      rw [find?_append_of_none _ _ _ hf, List.find?_cons, nameMatches_self]
    unfold create_label
    rw [hfind2]
    exact ⟨rfl, rfl, Nat.le_refl 1, by simp [hf]⟩

/-! ## Job orchestration (`workers.py`, `classify_emails_task`; `main.py`,
`cancel_job`)

The database is modelled as the job row and the presence of the owning
user row; every provider interaction of one run is fixed by an environment
record. `classify_emails_task` becomes a pure function from environment and
world to the resulting world plus the log of label-application calls. -/

/-- The job status enum from `models.py`. -/
inductive JobStatus
  | pending
  | running
  | completed
  | failed
  | cancelled
deriving DecidableEq, Repr

/-- The `Job` row fields the claims are about. An error entry is
(messageId, message); the synthetic entry written on job failure carries an
empty message id. -/
structure JobRec where
  status : JobStatus
  totalEmails : Nat
  processedEmails : Nat
  errorCount : Nat
  categoryCounts : List (String × Nat)
  errors : List (String × String)
  completedAt : Bool
  celeryTaskId : Option String
deriving DecidableEq, Repr

/-- Database state for one job id as the task and the cancel endpoint see
it: the job row, if present, and whether the owning user row exists. -/
structure World where
  job : Option JobRec
  userExists : Bool
deriving DecidableEq, Repr

/-- Per-message outcome of `gmail.get_message_detail` and the surrounding
`try` body: a fetched detail, an absent result (`None`), or an exception
raised before the counter update at line 115 of `workers.py` (a
non-HttpError escaping the fetch retry, classification, or `apply_label`
raising). -/
inductive FetchOutcome
  | detail (subject body sender : String)
  | absent
  | exn (msg : String)
deriving DecidableEq, Repr

/-- Outcome of the setup phase: the listed message ids, an exception before
`total_emails` is stored (credential refresh, classifier init, listing), or
one after it (label creation). -/
inductive SetupOutcome
  | ok (ids : List String)
  | failBeforeListing (msg : String)
  | failAfterListing (ids : List String) (msg : String)
deriving Repr

/-- Everything external that one run of `classify_emails_task` consumes.
`cancelRequestedAt` is the message index at which an external cancellation
request arrives, if any; the task's loop contains no cancellation check, so
`runJob` never reads it — the field exists so that claims about
cancellation observability can be stated against the run. -/
structure Env where
  taskId : String
  setup : SetupOutcome
  fetch : String → FetchOutcome
  applyOk : String → Bool
  mode : ModelMode
  model : Option MLModel
  cancelRequestedAt : Option Nat

/-- The zero tally over the catalog keys, as initialised at the top of the
processing loop. -/
def initCounts : List (String × Nat) :=
  catalogKeys.map (fun c => (c, 0))

/-- Python `category_counts[category] += 1`. -/
def bumpCount (counts : List (String × Nat)) (cat : String) :
    List (String × Nat) :=
  counts.map (fun p => if p.1 = cat then (p.1, p.2 + 1) else p)

/-- Python `sum(category_counts.values())`. -/
def sumCounts (counts : List (String × Nat)) : Nat :=
  (counts.map Prod.snd).sum

/-- Mutable state of the processing loop: the job row, the local
`category_counts` dict, the local `errors` list, and the log of
`apply_label` calls issued. -/
structure LoopState where
  job : JobRec
  counts : List (String × Nat)
  errs : List (String × String)
  applyCalls : List String
deriving Repr

/-- One iteration of the `for idx, message_id in enumerate(message_ids)`
loop of `classify_emails_task`. A fetch failure or exception appends an
error and increments `error_count` without reaching the counter update; on
the success path `label_cache.get(category)` finds a label id exactly when
the category is in the static catalog (labels were created for every
catalog key during setup), the label is applied (counting the message on
success, recording an error on failure), and then
`job.processed_emails = idx + 1` and `job.category_counts = category_counts`
are assigned. Each branch is written with its final field values. -/
def processMessage (env : Env) (idx : Nat) (mid : String)
    (st : LoopState) : LoopState :=
  match env.fetch mid with
  | FetchOutcome.absent =>
    { st with errs := st.errs ++ [(mid, "Failed to fetch")],
              job := { st.job with errorCount := st.job.errorCount + 1 } }
  | FetchOutcome.exn m =>
    { st with errs := st.errs ++ [(mid, m)],
              job := { st.job with errorCount := st.job.errorCount + 1 } }
  | FetchOutcome.detail s b snd =>
    if classify s b snd env.mode env.model ∈ catalogKeys then
      if env.applyOk mid then
        { st with counts := bumpCount st.counts (classify s b snd env.mode env.model),
                  applyCalls := st.applyCalls ++ [mid],
                  job := { st.job with
                    processedEmails := idx + 1,
                    categoryCounts :=
                      bumpCount st.counts (classify s b snd env.mode env.model) } }
      else
        { st with errs := st.errs ++ [(mid, "Failed to apply label")],
                  applyCalls := st.applyCalls ++ [mid],
                  job := { st.job with
                    errorCount := st.job.errorCount + 1,
                    processedEmails := idx + 1,
                    categoryCounts := st.counts } }
    else
      { st with job := { st.job with processedEmails := idx + 1,
                                     categoryCounts := st.counts } }

/-- The whole processing loop, with absolute indices from `enumerate`. -/
def runLoop (env : Env) (ids : List String) (st : LoopState) : LoopState :=
  ids.enum.foldl (fun s p => processMessage env p.1 p.2 s) st

/-- Embeds `classify_emails_task`: load job and user (return unchanged when either
is missing), set RUNNING, run setup, process every message, then finalize
as COMPLETED — or FAILED with one synthetic error entry when setup raises.
Returns the resulting world and the log of label-application calls. -/
def runJob (env : Env) (w : World) : World × List String :=
  match w.job with
  | none => (w, [])
  | some job0 =>
    if w.userExists then
      match env.setup with
      | SetupOutcome.failBeforeListing m =>
        ({ w with job := some { job0 with
             status := JobStatus.failed,
             celeryTaskId := some env.taskId,
             errors := [("", m)] } }, [])
      | SetupOutcome.failAfterListing ids m =>
        ({ w with job := some { job0 with
             status := JobStatus.failed,
             celeryTaskId := some env.taskId,
             totalEmails := ids.length,
             errors := [("", m)] } }, [])
      | SetupOutcome.ok ids =>
        let stF := runLoop env ids
          { job := { job0 with status := JobStatus.running,
                               celeryTaskId := some env.taskId,
                               totalEmails := ids.length },
            counts := initCounts, errs := [], applyCalls := [] }
        ({ w with job := some { stF.job with
             status := JobStatus.completed,
             completedAt := true,
             errors := stF.errs.take 100 } }, stF.applyCalls)
    else (w, [])

/-- Result of `POST /api/jobs/{job_id}/cancel` from `main.py`. -/
inductive CancelResult
  | notFound
  | badState
  | ok
deriving DecidableEq, Repr

/-- The cancel endpoint: 404 when the job is missing, 400 unless the status
is PENDING or RUNNING, else revoke the external task and set CANCELLED. -/
def cancelJob (w : World) : World × CancelResult :=
  match w.job with
  | none => (w, CancelResult.notFound)
  | some job =>
    if job.status = JobStatus.pending ∨ job.status = JobStatus.running then
      ({ w with job := some { job with status := JobStatus.cancelled } },
       CancelResult.ok)
    else (w, CancelResult.badState)

/-! ### Concrete fixtures used by counterexamples and witnesses -/

/-- A freshly created job row (`main.py` `start_classification_job`):
PENDING with zeroed counters. -/
def pendingJob : JobRec :=
  { status := JobStatus.pending, totalEmails := 0, processedEmails := 0,
    errorCount := 0, categoryCounts := [], errors := [],
    completedAt := false, celeryTaskId := none }

/-- A world holding a fresh PENDING job whose user exists. -/
def wPending : World := { job := some pendingJob, userExists := true }

/-- An environment with no messages at all. -/
def envTrivial : Env :=
  { taskId := "t", setup := SetupOutcome.ok [],
    fetch := fun _ => FetchOutcome.absent, applyOk := fun _ => true,
    mode := ModelMode.fast, model := none, cancelRequestedAt := none }

/-- One message whose detail fetch returns absent. -/
def envAbsent : Env :=
  { taskId := "t", setup := SetupOutcome.ok ["m1"],
    fetch := fun _ => FetchOutcome.absent, applyOk := fun _ => true,
    mode := ModelMode.fast, model := none, cancelRequestedAt := none }

/-- A model predicting a label outside the static catalog. -/
def modelWeird : MLModel := fun _ => MLOutcome.pred "weird"

/-- One message classified outside the catalog via the fallback model. -/
def envSkip : Env :=
  { taskId := "t", setup := SetupOutcome.ok ["m1"],
    fetch := fun _ => FetchOutcome.detail "" "" "", applyOk := fun _ => true,
    mode := ModelMode.balanced, model := some modelWeird,
    cancelRequestedAt := none }

/-- Builds `n` distinct message ids. -/
def msgIds (n : Nat) : List String :=
  (List.range n).map (fun i => "m" ++ toString i)

/-- Twenty well-behaved messages with a cancellation request arriving at
message index 5. -/
def env20 : Env :=
  { taskId := "t", setup := SetupOutcome.ok (msgIds 20),
    fetch := fun _ => FetchOutcome.detail "" "" "", applyOk := fun _ => true,
    mode := ModelMode.fast, model := none, cancelRequestedAt := some 5 }

/-! ### Counter bookkeeping lemmas -/

/-- Bumping a category leaves the key sequence of the tally unchanged. -/
theorem bumpCount_keys (counts : List (String × Nat)) (cat : String) :
    (bumpCount counts cat).map Prod.fst = counts.map Prod.fst := by
  unfold bumpCount
  rw [List.map_map]
  apply List.map_congr_left
  intro p _
  by_cases hp : p.1 = cat <;> simp [hp]

/-- Bumping a key that is not in the tally is a no-op. -/
theorem bumpCount_of_not_mem (counts : List (String × Nat)) (cat : String)
    (h : cat ∉ counts.map Prod.fst) : bumpCount counts cat = counts := by
  induction counts with
  | nil => rfl
  | cons p rest ih =>
    rw [List.map_cons, List.mem_cons] at h
    push_neg at h
    unfold bumpCount
    rw [List.map_cons]
    rw [if_neg (fun hc => h.1 hc.symm)]
    have := ih h.2
    unfold bumpCount at this
    rw [this]

/-- Bumping a key occurring exactly once (keys nodup) adds one to the total
tally. -/
theorem bumpCount_sum (counts : List (String × Nat)) (cat : String)
    (hnd : (counts.map Prod.fst).Nodup) (hmem : cat ∈ counts.map Prod.fst) :
    sumCounts (bumpCount counts cat) = sumCounts counts + 1 := by
  induction counts with
  | nil => simp at hmem
  | cons p rest ih =>
    rw [List.map_cons, List.nodup_cons] at hnd
    rw [List.map_cons, List.mem_cons] at hmem
    unfold bumpCount sumCounts
    rw [List.map_cons, List.map_cons, List.sum_cons]
    by_cases hp : p.1 = cat
    · rw [if_pos hp]
      have hno : cat ∉ rest.map Prod.fst := hp ▸ hnd.1
      have hrest := bumpCount_of_not_mem rest cat hno
      unfold bumpCount at hrest
      rw [hrest]
      show p.2 + 1 + (rest.map Prod.snd).sum = p.2 + (rest.map Prod.snd).sum + 1
      omega
    · rw [if_neg hp]
      have hmem' : cat ∈ rest.map Prod.fst := by
        rcases hmem with h | h
        · exact absurd h.symm hp
        · exact h
      have := ih hnd.2 hmem'
      unfold bumpCount sumCounts at this
      rw [List.map_cons, List.sum_cons]
      rw [this]
      omega

/-- The initial tally covers exactly the catalog keys. -/
theorem initCounts_keys : initCounts.map Prod.fst = catalogKeys := by decide

/-- The initial tally sums to zero. -/
theorem initCounts_sum : sumCounts initCounts = 0 := by decide

/-- The catalog keys are distinct. -/
theorem catalogKeys_nodup : catalogKeys.Nodup := by decide

/-! ### The processing-loop invariant -/

/-- A message whose iteration runs the success path: its detail is fetched
and its classification lands in the static catalog (the label application
may still fail, which is counted as an error). -/
def goodOutcome (env : Env) (mid : String) : Prop :=
  ∃ s b snd, env.fetch mid = FetchOutcome.detail s b snd ∧
    classify s b snd env.mode env.model ∈ catalogKeys

/-- The processing loop starting at absolute index `k`. -/
def foldFrom (env : Env) (k : Nat) (ids : List String) (st : LoopState) :
    LoopState :=
  (List.enumFrom k ids).foldl (fun s p => processMessage env p.1 p.2 s) st

/-- Loop invariant over good messages: every iteration at absolute index
`k` sets `processed` to `k + 1` and adds exactly one to
`sum(category_counts) + error_count`; `total_emails` is never touched. -/
theorem foldFrom_invariant (env : Env) :
    ∀ (ids : List String), (∀ mid ∈ ids, goodOutcome env mid) →
    ∀ (k : Nat) (st : LoopState),
      st.counts.map Prod.fst = catalogKeys →
      sumCounts st.job.categoryCounts = sumCounts st.counts →
      sumCounts st.counts + st.job.errorCount = st.job.processedEmails →
      st.job.processedEmails = k →
      (foldFrom env k ids st).job.processedEmails = k + ids.length ∧
      (foldFrom env k ids st).counts.map Prod.fst = catalogKeys ∧
      sumCounts (foldFrom env k ids st).job.categoryCounts =
        sumCounts (foldFrom env k ids st).counts ∧
      sumCounts (foldFrom env k ids st).counts +
        (foldFrom env k ids st).job.errorCount =
        (foldFrom env k ids st).job.processedEmails ∧
      (foldFrom env k ids st).job.totalEmails = st.job.totalEmails := by
  intro ids
  induction ids with
  | nil =>
    intro _ k st h1 h2 h3 h4
    have hid : foldFrom env k ([] : List String) st = st := rfl
    rw [hid, List.length_nil]
    exact ⟨by omega, h1, h2, h3, rfl⟩
  | cons mid rest ih =>
    intro hgood k st h1 h2 h3 h4
    obtain ⟨s, b, snd, hfetch, hcat⟩ := hgood mid (List.mem_cons_self mid rest)
    have hgoodrest : ∀ m ∈ rest, goodOutcome env m :=
      fun m hm => hgood m (List.mem_cons_of_mem _ hm)
    have hstep : foldFrom env k (mid :: rest) st =
        foldFrom env (k + 1) rest (processMessage env k mid st) := rfl
    rw [hstep]
    cases happly : env.applyOk mid with
    | true =>
      have hpm : processMessage env k mid st =
          { st with
            counts := bumpCount st.counts (classify s b snd env.mode env.model),
            applyCalls := st.applyCalls ++ [mid],
            job := { st.job with
              processedEmails := k + 1,
              categoryCounts :=
                bumpCount st.counts (classify s b snd env.mode env.model) } } := by
        simp [processMessage, hfetch, hcat, happly]
      rw [hpm]
      have hsum1 : sumCounts
          (bumpCount st.counts (classify s b snd env.mode env.model)) =
          sumCounts st.counts + 1 :=
        bumpCount_sum _ _ (h1 ▸ catalogKeys_nodup) (h1 ▸ hcat)
      obtain ⟨q1, q2, q3, q4, q5⟩ := ih hgoodrest (k + 1)
        { st with
          counts := bumpCount st.counts (classify s b snd env.mode env.model),
          applyCalls := st.applyCalls ++ [mid],
          job := { st.job with
            processedEmails := k + 1,
            categoryCounts :=
              bumpCount st.counts (classify s b snd env.mode env.model) } }
        (by show List.map Prod.fst
              (bumpCount st.counts (classify s b snd env.mode env.model)) =
              catalogKeys
            rw [bumpCount_keys]; exact h1)
        rfl
        (by show sumCounts
              (bumpCount st.counts (classify s b snd env.mode env.model)) +
              st.job.errorCount = k + 1
            rw [hsum1]; omega)
        rfl
      refine ⟨?_, q2, q3, q4, ?_⟩
      · rw [q1, List.length_cons]; omega
      · exact q5
    | false =>
      have hpm : processMessage env k mid st =
          { st with
            errs := st.errs ++ [(mid, "Failed to apply label")],
            applyCalls := st.applyCalls ++ [mid],
            job := { st.job with
              errorCount := st.job.errorCount + 1,
              processedEmails := k + 1,
              categoryCounts := st.counts } } := by
        simp [processMessage, hfetch, hcat, happly]
      rw [hpm]
      obtain ⟨q1, q2, q3, q4, q5⟩ := ih hgoodrest (k + 1)
        { st with
          errs := st.errs ++ [(mid, "Failed to apply label")],
          applyCalls := st.applyCalls ++ [mid],
          job := { st.job with
            errorCount := st.job.errorCount + 1,
            processedEmails := k + 1,
            categoryCounts := st.counts } }
        h1
        rfl
        (by show sumCounts st.counts + (st.job.errorCount + 1) = k + 1
            omega)
        rfl
      refine ⟨?_, q2, q3, q4, ?_⟩
      · rw [q1, List.length_cons]; omega
      · exact q5

/-! ### Claims about the orchestrator -/

/-- C1 (amended): a fresh job run to COMPLETED satisfies
`sum(categoryCounts) + errorCount = processed = total`, provided every
message reaches the success path (detail fetched without exception and the
category lands in the static catalog); label-application failures are still
allowed. The counterexample shows both equalities fail without the
proviso. -/
theorem completed_job_counters_c1 (env : Env) (w : World) (j : JobRec)
    (ids : List String)
    (hjob : w.job = some j) (huser : w.userExists = true)
    (hsetup : env.setup = SetupOutcome.ok ids)
    (hproc : j.processedEmails = 0) (herr : j.errorCount = 0)
    (hcc : sumCounts j.categoryCounts = 0)
    (hgood : ∀ mid ∈ ids, goodOutcome env mid) :
    ∃ j', (runJob env w).1.job = some j' ∧ j'.status = JobStatus.completed ∧
      j'.totalEmails = ids.length ∧ j'.processedEmails = j'.totalEmails ∧
      sumCounts j'.categoryCounts + j'.errorCount = j'.processedEmails := by
  obtain ⟨q1, q2, q3, q4, q5⟩ := foldFrom_invariant env ids hgood 0
    { job := { j with status := JobStatus.running,
                      celeryTaskId := some env.taskId,
                      totalEmails := ids.length },
      counts := initCounts, errs := [], applyCalls := [] }
    initCounts_keys
    (by show sumCounts j.categoryCounts = sumCounts initCounts
        rw [hcc, initCounts_sum])
    (by show sumCounts initCounts + j.errorCount = j.processedEmails
        rw [initCounts_sum, herr, hproc])
    hproc
  have hrun : runJob env w =
      ({ w with job := some { (foldFrom env 0 ids
           { job := { j with status := JobStatus.running,
                             celeryTaskId := some env.taskId,
                             totalEmails := ids.length },
             counts := initCounts, errs := [], applyCalls := [] }).job with
           status := JobStatus.completed, completedAt := true,
           errors := (foldFrom env 0 ids
             { job := { j with status := JobStatus.running,
                               celeryTaskId := some env.taskId,
                               totalEmails := ids.length },
               counts := initCounts, errs := [], applyCalls := [] }).errs.take 100 } },
       (foldFrom env 0 ids
         { job := { j with status := JobStatus.running,
                           celeryTaskId := some env.taskId,
                           totalEmails := ids.length },
           counts := initCounts, errs := [], applyCalls := [] }).applyCalls) := by
    unfold runJob
    rw [hjob, huser, hsetup]
    rfl
  rw [hrun]
  refine ⟨_, rfl, rfl, ?_, ?_, ?_⟩
  · show (foldFrom env 0 ids _).job.totalEmails = ids.length
    exact q5.trans rfl
  · show (foldFrom env 0 ids _).job.processedEmails =
      (foldFrom env 0 ids _).job.totalEmails
    rw [q1, q5]
    show 0 + ids.length = ids.length
    omega
  · show sumCounts (foldFrom env 0 ids _).job.categoryCounts +
      (foldFrom env 0 ids _).job.errorCount =
      (foldFrom env 0 ids _).job.processedEmails
    rw [q3]
    exact q4

/-- Two well-behaved messages in FAST mode. -/
def envGood : Env :=
  { taskId := "t", setup := SetupOutcome.ok (msgIds 2),
    fetch := fun _ => FetchOutcome.detail "" "" "", applyOk := fun _ => true,
    mode := ModelMode.fast, model := none, cancelRequestedAt := none }

/-- Witness for C1 (amended): a fresh job over two good messages completes
with matching counters. -/
theorem completed_job_counters_c1_witness :
    ∃ j', (runJob envGood wPending).1.job = some j' ∧
      j'.status = JobStatus.completed ∧ j'.totalEmails = (msgIds 2).length ∧
      j'.processedEmails = j'.totalEmails ∧
      sumCounts j'.categoryCounts + j'.errorCount = j'.processedEmails :=
  completed_job_counters_c1 envGood wPending pendingJob (msgIds 2)
    rfl rfl rfl rfl rfl rfl
    (fun _ _ => ⟨"", "", "", rfl, by decide⟩)

/-- Counterexample to C1 as stated: (i) a single message whose detail fetch
fails still yields a COMPLETED job, with `processed = 0 ≠ 1 = total` and
`sum(categoryCounts) + errorCount = 1 ≠ 0 = processed`; (ii) a single
message classified outside the catalog by the fallback model yields a
COMPLETED job with `sum(categoryCounts) + errorCount = 0 ≠ 1 = processed`. -/
theorem completed_counters_counterexample_c1 :
    (∃ j', (runJob envAbsent wPending).1.job = some j' ∧
      j'.status = JobStatus.completed ∧
      ¬ (sumCounts j'.categoryCounts + j'.errorCount = j'.processedEmails ∧
         j'.processedEmails = j'.totalEmails)) ∧
    (∃ j', (runJob envSkip wPending).1.job = some j' ∧
      j'.status = JobStatus.completed ∧
      j'.processedEmails = j'.totalEmails ∧
      ¬ (sumCounts j'.categoryCounts + j'.errorCount = j'.processedEmails)) := by
  refine ⟨⟨_, rfl, rfl, ?_⟩, ⟨_, rfl, rfl, rfl, ?_⟩⟩ <;> decide

/-- C2 (amended): an orchestrator run on an existing job and user always
finishes in COMPLETED or FAILED, whatever the job's prior status — so the
terminal states are not absorbing against a run (see the counterexample);
the cancel endpoint is the only writer of CANCELLED and it rejects jobs
already in a terminal state. -/
theorem job_state_machine_c2 :
    (∀ env w j, w.job = some j → w.userExists = true →
      ∃ j', (runJob env w).1.job = some j' ∧
        (j'.status = JobStatus.completed ∨ j'.status = JobStatus.failed)) ∧
    (∀ w j, w.job = some j →
      (j.status = JobStatus.completed ∨ j.status = JobStatus.failed ∨
        j.status = JobStatus.cancelled) →
      cancelJob w = (w, CancelResult.badState)) := by
  constructor
  · intro env w j hjob huser
    unfold runJob
    rw [hjob, huser]
    cases env.setup with
    | failBeforeListing m => exact ⟨_, rfl, Or.inr rfl⟩
    | failAfterListing ids m => exact ⟨_, rfl, Or.inr rfl⟩
    | ok ids => exact ⟨_, rfl, Or.inl rfl⟩
  · intro w j hjob hterm
    unfold cancelJob
    rw [hjob]
    show (if j.status = JobStatus.pending ∨ j.status = JobStatus.running
          then ({ w with job := some { j with status := JobStatus.cancelled } },
                CancelResult.ok)
          else (w, CancelResult.badState)) = (w, CancelResult.badState)
    rcases hterm with h | h | h <;> rw [h, if_neg (by decide)]

/-- Witness for C2 (amended): the trivial run on a fresh pending job ends in
a terminal state. -/
theorem job_state_machine_c2_witness :
    ∃ j', (runJob envTrivial wPending).1.job = some j' ∧
      (j'.status = JobStatus.completed ∨ j'.status = JobStatus.failed) :=
  job_state_machine_c2.1 envTrivial wPending pendingJob rfl rfl

/-- Counterexample to C2 as stated: a job cancelled while PENDING (status
CANCELLED, a terminal state) is still picked up by the orchestrator run,
which moves it out of CANCELLED and completes it — the race resolves to a
run that completes, and CANCELLED is not absorbing. -/
theorem terminal_not_absorbing_counterexample_c2 :
    (cancelJob wPending).1.job.map JobRec.status = some JobStatus.cancelled ∧
    (runJob envTrivial (cancelJob wPending).1).1.job.map JobRec.status =
      some JobStatus.completed :=
  ⟨rfl, rfl⟩

/-- C3 (amended): the run contains no cancellation check at all — its
result does not depend on when (or whether) cancellation is requested, and
the run never produces the CANCELLED status; cancellation takes effect only
through the cancel endpoint, which revokes the external task and itself
sets CANCELLED on a PENDING or RUNNING job. -/
theorem cancellation_never_observed_c3 :
    (∀ (env : Env) (w : World) (c c' : Option Nat),
      runJob { env with cancelRequestedAt := c } w =
        runJob { env with cancelRequestedAt := c' } w) ∧
    (∀ env w j, w.job = some j → j.status ≠ JobStatus.cancelled →
      (runJob env w).1.job.map JobRec.status ≠ some JobStatus.cancelled) ∧
    (∀ w j, w.job = some j → j.status = JobStatus.running →
      (cancelJob w).1.job = some { j with status := JobStatus.cancelled } ∧
      (cancelJob w).2 = CancelResult.ok) := by
  refine ⟨fun env w c c' => rfl, fun env w j hjob hnc => ?_, fun w j hjob hrun => ?_⟩
  · unfold runJob
    rw [hjob]
    cases huser : w.userExists with
    | false =>
      show (w, ([] : List String)).1.job.map JobRec.status ≠ some JobStatus.cancelled
      rw [hjob]
      simpa using hnc
    | true =>
      cases env.setup with
      | failBeforeListing m => simp
      | failAfterListing ids m => simp
      | ok ids => simp
  · have hc : cancelJob w =
        ({ w with job := some { j with status := JobStatus.cancelled } },
         CancelResult.ok) := by
      unfold cancelJob
      rw [hjob]
      show (if j.status = JobStatus.pending ∨ j.status = JobStatus.running
            then ({ w with job := some { j with status := JobStatus.cancelled } },
                  CancelResult.ok)
            else (w, CancelResult.badState)) = _
      rw [hrun, if_pos (Or.inr rfl)]
    rw [hc]
    exact ⟨rfl, rfl⟩

/-- Witness for C3 (amended): the trivial run does not end CANCELLED. -/
theorem cancellation_never_observed_c3_witness :
    (runJob envTrivial wPending).1.job.map JobRec.status ≠
      some JobStatus.cancelled :=
  cancellation_never_observed_c3.2.1 envTrivial wPending pendingJob rfl
    (by decide)

/-- Counterexample to C3 as stated: with a cancellation signal arriving at
message index 5 of 20, the run (which never consults the signal) still
fetches, classifies and labels all 20 messages and finishes COMPLETED with
`processed = 20` — not CANCELLED with `processed ≤ 6`. -/
theorem no_cancellation_check_counterexample_c3 :
    env20.cancelRequestedAt = some 5 ∧
    (runJob env20 wPending).1.job.map
      (fun j => (j.status, j.processedEmails, j.totalEmails)) =
      some (JobStatus.completed, 20, 20) :=
  ⟨rfl, by decide⟩

/-- C4 (amended): when the job row or the owning user row is missing at
entry, the task returns immediately — it performs no credential resolution,
listing or message processing and leaves the world untouched for every
environment; in particular the job is not marked FAILED and no error entry
is recorded. -/
theorem run_missing_job_or_user_noop_c4 (env : Env) (w : World)
    (h : w.job = none ∨ w.userExists = false) :
    runJob env w = (w, []) := by
  rcases h with h | h
  · unfold runJob
    rw [h]
  · unfold runJob
    cases hj : w.job with
    | none => rfl
    | some j =>
      rw [h]
      show (w, ([] : List String)) = (w, [])
      rfl

/-- Witness for C4 (amended): a world with no job row is returned
unchanged. -/
theorem run_missing_job_or_user_noop_c4_witness :
    runJob envTrivial { job := none, userExists := true } =
      ({ job := none, userExists := true }, []) :=
  run_missing_job_or_user_noop_c4 envTrivial _ (Or.inl rfl)

/-- Counterexample to C4 as stated: with the job row present but the user
row missing, the task leaves the job PENDING with an empty error list —
it does not set FAILED and writes no synthetic error entry. -/
theorem run_missing_user_counterexample_c4 :
    runJob envTrivial { job := some pendingJob, userExists := false } =
      ({ job := some pendingJob, userExists := false }, []) ∧
    pendingJob.status = JobStatus.pending ∧ pendingJob.errors = [] :=
  ⟨rfl, rfl, rfl⟩

/-- C10: a message whose classification falls outside the six catalog
categories (possible only via the probabilistic fallback: FAST-mode
classification always lands in the catalog) gets no label application, no
category count, no error entry and no errorCount increment, yet
`processed` is still set to `idx + 1` — the message is silently skipped. -/
theorem silent_skip_c10 :
    (∀ env idx mid st s b snd,
      env.fetch mid = FetchOutcome.detail s b snd →
      classify s b snd env.mode env.model ∉ catalogKeys →
      processMessage env idx mid st =
        { st with job := { st.job with processedEmails := idx + 1,
                                       categoryCounts := st.counts } }) ∧
    (∀ s b snd model, classify s b snd ModelMode.fast model ∈ catalogKeys) := by
  constructor
  · intro env idx mid st s b snd hfetch hnot
    simp [processMessage, hfetch, hnot]
  · intro s b snd model
    rw [classify_eq_rule_or_fallback]
    cases hr : ruleBasedClassify (classifyText s b snd) with
    | some c =>
      have hmem := ruleBasedClassify_mem _ _ hr
      have hsub : ∀ x ∈ ["spam", "security", "finance", "promotion", "work"],
          x ∈ catalogKeys := by decide
      show c ∈ catalogKeys
      exact hsub c hmem
    | none =>
      cases model with
      | none =>
        show ("personal" : String) ∈ catalogKeys
        decide
      | some m =>
        show ("personal" : String) ∈ catalogKeys
        decide

/-- Witness for C10: the out-of-catalog prediction "weird" is silently
skipped — state unchanged except `processed := 1`. -/
theorem silent_skip_c10_witness :
    processMessage envSkip 0 "m1"
      { job := pendingJob, counts := initCounts, errs := [], applyCalls := [] } =
      { job := { pendingJob with processedEmails := 1,
                                 categoryCounts := initCounts },
        counts := initCounts, errs := [], applyCalls := [] } :=
  silent_skip_c10.1 envSkip 0 "m1"
    { job := pendingJob, counts := initCounts, errs := [], applyCalls := [] }
    "" "" "" rfl (by decide)

end GmailSorting
